import Mathlib

/-
Verification of the streaming core of the fraud-detection-platform repository:
the Redis Streams client in src/streaming/redis_producer.py (TransactionProducer)
and src/streaming/redis_consumer.py (TransactionConsumer).

The embedding models, from the source:
  - the Python values the producer accepts (dicts with string or int keys,
    None/bool/int/str/list/tuple/dict values; floats are out of the model) and the
    json.dumps / json.loads serialization the pipeline applies to them,
    modelled at the JSON-value level: a valid JSON text denotes a unique JSON
    value, so the wire is either a JSON value or an invalid text (Wire.raw);
  - the Redis stream / consumer-group server state the client manipulates via
    XADD, XGROUP CREATE, XREADGROUP (with the '>' id, as the source always
    uses) and XACK, with a storageUp flag modelling the durability layer being
    reachable (a command on a down connection raises);
  - the client methods themselves: publish_transaction / publish_batch
    (timestamp injection then xadd of the serialized dict),
    consume_messages (xreadgroup '>' then per-message json.loads, with the
    source's catch-all exception handler returning []), acknowledge_message
    (xack under a catch-all handler), _create_consumer_group (xgroup_create
    treating BUSYGROUP as success), and the processing loop body of
    start_consuming (ack only after successful processing).
Real time (block_ms, sleep) is abstracted: a blocking read that times out is
modelled as the empty reply Redis returns at the end of the block.
-/

namespace FraudStream

/-- Keys of a Python dict as accepted by json.dumps in the producer:
string keys, or int keys (which json.dumps coerces to decimal strings). -/
inductive PyKey where
  | str (s : String)
  | int (n : Int)
deriving DecidableEq

mutual
/-- Python values in the domain the producer's json.dumps accepts:
None, bools, ints, strings, lists, tuples (serialized as JSON arrays and
therefore delivered back as lists) and dicts. Floating-point values are
excluded from the model (floating point is not statable here); note that
a NaN float value would also break round-trip equality in the program. -/
inductive PyVal where
  | none
  | bool (b : Bool)
  | int (n : Int)
  | str (s : String)
  | list (xs : PyList)
  | tuple (xs : PyList)
  | dict (kvs : PyDict)
/-- A Python list of PyVal. -/
inductive PyList where
  | nil
  | cons (x : PyVal) (xs : PyList)
/-- A Python dict in insertion order (keys PyKey, values PyVal). -/
inductive PyDict where
  | nil
  | cons (k : PyKey) (v : PyVal) (kvs : PyDict)
end

mutual
/-- JSON values: what a valid JSON text denotes (object keys are strings). -/
inductive Json where
  | null
  | bool (b : Bool)
  | num (n : Int)
  | str (s : String)
  | arr (xs : JsonList)
  | obj (kvs : JsonObj)
/-- A JSON array body. -/
inductive JsonList where
  | nil
  | cons (x : Json) (xs : JsonList)
/-- A JSON object body, in textual order. -/
inductive JsonObj where
  | nil
  | cons (k : String) (v : Json) (kvs : JsonObj)
end

/-- How json.dumps renders a dict key: strings stay, ints become decimal text. -/
def keyToStr : PyKey → String
  | .str s => s
  | .int n => toString n

mutual
/-- Model of json.dumps on the producer's value domain, at the JSON-value
level. A tuple is serialized exactly like a list: as a JSON array. -/
def dumps : PyVal → Json
  | .none => .null
  | .bool b => .bool b
  | .int n => .num n
  | .str s => .str s
  | .list xs => .arr (dumpsL xs)
  | .tuple xs => .arr (dumpsL xs)
  | .dict kvs => .obj (dumpsD kvs)
/-- dumps mapped over a Python list. -/
def dumpsL : PyList → JsonList
  | .nil => .nil
  | .cons x xs => .cons (dumps x) (dumpsL xs)
/-- dumps mapped over a Python dict (keys coerced by keyToStr). -/
def dumpsD : PyDict → JsonObj
  | .nil => .nil
  | .cons k v kvs => .cons (keyToStr k) (dumps v) (dumpsD kvs)
end

mutual
/-- Model of json.loads on a JSON value: object keys come back as strings. -/
def pyOfJson : Json → PyVal
  | .null => .none
  | .bool b => .bool b
  | .num n => .int n
  | .str s => .str s
  | .arr xs => .list (pyOfJsonL xs)
  | .obj kvs => .dict (pyOfJsonO kvs)
/-- loads mapped over a JSON array body. -/
def pyOfJsonL : JsonList → PyList
  | .nil => .nil
  | .cons x xs => .cons (pyOfJson x) (pyOfJsonL xs)
/-- loads mapped over a JSON object body. -/
def pyOfJsonO : JsonObj → PyDict
  | .nil => .nil
  | .cons k v kvs => .cons (.str k) (pyOfJson v) (pyOfJsonO kvs)
end

mutual
/-- A value whose shape survives the json.dumps / json.loads round trip
unchanged: every dict key occurring anywhere inside it is a string, and no
tuple occurs anywhere inside it (json.dumps writes a tuple as a JSON array,
which json.loads returns as a list). -/
def jsonStable : PyVal → Bool
  | .none => true
  | .bool _ => true
  | .int _ => true
  | .str _ => true
  | .list xs => jsonStableL xs
  | .tuple _ => false
  | .dict kvs => jsonStableD kvs
/-- jsonStable over a Python list. -/
def jsonStableL : PyList → Bool
  | .nil => true
  | .cons x xs => jsonStable x && jsonStableL xs
/-- jsonStable over a Python dict. -/
def jsonStableD : PyDict → Bool
  | .nil => true
  | .cons (.str _) v kvs => jsonStable v && jsonStableD kvs
  | .cons (.int _) _ _ => false
end

/-- Python string-key lookup comparison: an int key never matches a string. -/
def keyMatches (k : String) : PyKey → Bool
  | .str s => s == k
  | .int _ => false

/-- First-match lookup of a string key in a Python dict. -/
def lookupD (k : String) : PyDict → Option PyVal
  | .nil => Option.none
  | .cons k0 v kvs => if keyMatches k k0 then some v else lookupD k kvs

/-- Model of the Python membership test for a string key. -/
def hasKeyD (k : String) (d : PyDict) : Bool := (lookupD k d).isSome

/-- Effect of the assignment of a fresh key in a Python dict: appended at the
end in insertion order. -/
def setTsAtEnd (now : String) : PyDict → PyDict
  | .nil => .cons (.str "timestamp") (.str now) .nil
  | .cons k v kvs => .cons k v (setTsAtEnd now kvs)

/-- The producer's timestamp injection, from publish_transaction lines 52-54
and publish_batch lines 83-84 of redis_producer.py: add a timestamp key only
when absent, mutating the caller's dict. -/
def addTimestamp (now : String) (d : PyDict) : PyDict :=
  if hasKeyD "timestamp" d then d else setTsAtEnd now d

/-- A wire payload, as stored in the entry's data field: either a valid JSON
text (identified with the JSON value it denotes) or an invalid text. -/
inductive Wire where
  | json (j : Json)
  | raw (s : String)

/-- Model of json.loads on a wire text: fails exactly on invalid JSON. -/
def loadsWire : Wire → Option PyVal
  | .json j => some (pyOfJson j)
  | .raw _ => Option.none

/-- A stream entry: its id and the data field the producer stored. -/
structure Entry where
  eid : Nat
  payload : Wire

/-- A pending-entries-list record: entry id and the claiming consumer's name. -/
structure PendingEntry where
  eid : Nat
  consumer : String

/-- A consumer group: last-delivered id and the pending entries list. -/
structure Group where
  lastDelivered : Nat
  pending : List PendingEntry

/-- Redis server state as seen through this client: whether the durability
layer is reachable, the entries of the configured stream (ascending ids,
assigned from nextId starting at 1), and the configured consumer group if it
has been created. The source fixes one stream name and one group name from
the environment, so a single stream and a single optional group suffice. -/
structure RedisState where
  storageUp : Bool
  entries : List Entry
  nextId : Nat
  group : Option Group

/-- Errors a Redis command can raise at the client: BUSYGROUP from
XGROUP CREATE, NOGROUP from XREADGROUP, or the connection/storage failing. -/
inductive RErr where
  | busygroup
  | nogroup
  | storage
deriving DecidableEq

/-- Model of XADD as the producer calls it: assign the next id, append the
entry; raise if the durability layer is down (then nothing is stored). -/
def xadd (w : Wire) (s : RedisState) : Except RErr (Nat × RedisState) :=
  if s.storageUp then
    .ok (s.nextId,
      { s with entries := s.entries ++ [⟨s.nextId, w⟩], nextId := s.nextId + 1 })
  else .error .storage

/-- Model of XGROUP CREATE with id 0 and mkstream, as _create_consumer_group
calls it: raises BUSYGROUP when the group already exists, otherwise creates
the group reading from the start of the stream. -/
def xgroup_create (s : RedisState) : Except RErr RedisState :=
  if s.storageUp then
    match s.group with
    | some _ => .error .busygroup
    | Option.none => .ok { s with group := some ⟨0, []⟩ }
  else .error .storage

/-- Model of XREADGROUP with the special id used at redis_consumer.py line 82,
which delivers only entries never delivered to the group: take up to count
entries past the group's last-delivered id, record each as pending for the
requesting consumer, and advance the last-delivered id past them. Raises
NOGROUP when the group does not exist. An empty reply (after the block
timeout) is the empty list. -/
def xreadgroup_new (c : String) (count : Nat) (s : RedisState) :
    Except RErr (List (Nat × Wire) × RedisState) :=
  if s.storageUp then
    match s.group with
    | Option.none => .error .nogroup
    | some g =>
      let newEntries := (s.entries.filter (fun e => g.lastDelivered < e.eid)).take count
      let g' : Group :=
        ⟨newEntries.foldl (fun m e => max m e.eid) g.lastDelivered,
         g.pending ++ newEntries.map (fun e => ⟨e.eid, c⟩)⟩
      .ok (newEntries.map (fun e => (e.eid, e.payload)), { s with group := some g' })
  else .error .storage

/-- Model of XACK: remove the entry from the pending list if present and
return how many were removed; acknowledging an id that is not pending, or on
a stream/group that does not exist, returns 0 without error. -/
def xack (mid : Nat) (s : RedisState) : Except RErr (Nat × RedisState) :=
  if s.storageUp then
    match s.group with
    | Option.none => .ok (0, s)
    | some g =>
      if g.pending.any (fun p => p.eid == mid) then
        let g' : Group := ⟨g.lastDelivered, g.pending.filter (fun p => !(p.eid == mid))⟩
        .ok (1, { s with group := some g' })
      else .ok (0, s)
  else .error .storage

/-- TransactionConsumer._create_consumer_group (redis_consumer.py lines 50-64):
call xgroup_create and treat a BUSYGROUP response as success, leaving the
existing group untouched; every other error propagates. -/
def create_consumer_group (s : RedisState) : Except RErr RedisState :=
  match xgroup_create s with
  | .ok s1 => .ok s1
  | .error .busygroup => .ok s
  | .error e => .error e

/-- TransactionProducer.publish_transaction (redis_producer.py lines 41-66):
mutate the caller's dict by adding a timestamp when absent, then xadd the
serialized dict as the data field; an xadd failure is re-raised. The first
component is the caller-visible dict after the call (mutated in both the
success and the failure path, since the mutation precedes the xadd). -/
def publish_transaction (now : String) (txn : PyDict) (s : RedisState) :
    PyDict × Except RErr (Nat × RedisState) :=
  let txn1 := addTimestamp now txn
  (txn1, xadd (Wire.json (dumps (PyVal.dict txn1))) s)

/-- Sequential xadd of each wire payload, as the pipeline executes the queued
commands; on a down connection the execute raises and nothing is appended. -/
def xadd_batch (ws : List Wire) (s : RedisState) : Except RErr (List Nat × RedisState) :=
  match ws with
  | [] => .ok ([], s)
  | w :: rest =>
    match xadd w s with
    | .ok (mid, s1) =>
      match xadd_batch rest s1 with
      | .ok (mids, s2) => .ok (mid :: mids, s2)
      | .error e => .error e
    | .error e => .error e

/-- TransactionProducer.publish_batch (redis_producer.py lines 68-99): mutate
every dict lacking a timestamp, queue an xadd per dict, execute the pipeline;
failures re-raise. The first component is the caller-visible list of dicts. -/
def publish_batch (now : String) (txns : List PyDict) (s : RedisState) :
    List PyDict × Except RErr (List Nat × RedisState) :=
  let txns1 := txns.map (addTimestamp now)
  (txns1, xadd_batch (txns1.map (fun t => Wire.json (dumps (PyVal.dict t)))) s)

/-- The parsing loop of consume_messages (redis_consumer.py lines 90-97):
json.loads each data field in order; the first invalid one raises, discarding
the whole batch. -/
def parse_messages : List (Nat × Wire) → Option (List (Nat × PyVal))
  | [] => some []
  | (mid, w) :: rest =>
    match loadsWire w, parse_messages rest with
    | some v, some vs => some ((mid, v) :: vs)
    | _, _ => Option.none

/-- TransactionConsumer.consume_messages (redis_consumer.py lines 66-101):
xreadgroup with the only-new id, then parse each message. The catch-all
handler at lines 99-101 turns EVERY exception — a read failure as well as a
parse failure — into the return value [], the same value returned when there
are no new messages. Note that a parse failure happens after the read, so the
delivered entries stay claimed in the group even though [] is returned. -/
def consume_messages (c : String) (count : Nat) (s : RedisState) :
    List (Nat × PyVal) × RedisState :=
  match xreadgroup_new c count s with
  | .error _ => ([], s)
  | .ok (msgs, s1) =>
    match parse_messages msgs with
    | some parsed => (parsed, s1)
    | Option.none => ([], s1)

/-- TransactionConsumer.acknowledge_message (redis_consumer.py lines 103-113):
xack under a catch-all handler that only logs, so the method never raises and
a failed ack leaves the state as it was. -/
def acknowledge_message (mid : Nat) (s : RedisState) : RedisState :=
  match xack mid s with
  | .ok (_, s1) => s1
  | .error _ => s

/-- Whether an entry id is currently in the group's pending list. -/
def isPending (mid : Nat) (s : RedisState) : Bool :=
  match s.group with
  | some g => g.pending.any (fun p => p.eid == mid)
  | Option.none => false

/-- The per-batch body of start_consuming (redis_consumer.py lines 157-173):
process each message, acknowledge only when processing did not raise; the
parameter ok tells which transactions process_transaction succeeds on. -/
def process_batch (ok : PyVal → Bool) : List (Nat × PyVal) → RedisState → RedisState
  | [], s => s
  | (mid, txn) :: rest, s =>
    if ok txn then process_batch ok rest (acknowledge_message mid s)
    else process_batch ok rest s

/-! Helper lemmas about the pending list. -/

theorem any_filter_self (l : List PendingEntry) (m : Nat) :
    (l.filter (fun p => !(p.eid == m))).any (fun p => p.eid == m) = false := by
  induction l with
  | nil => rfl
  | cons p l ih =>
    by_cases h : p.eid = m
    · simp [List.filter_cons, h, ih]
    · simp [List.filter_cons, h, ih]

theorem any_filter_other (l : List PendingEntry) (m m' : Nat) (hne : m ≠ m') :
    (l.filter (fun p => !(p.eid == m'))).any (fun p => p.eid == m) =
      l.any (fun p => p.eid == m) := by
  induction l with
  | nil => rfl
  | cons p l ih =>
    rw [List.filter_cons]
    by_cases h : p.eid = m'
    · have hm : (p.eid == m) = false :=
        beq_eq_false_iff_ne.mpr (fun hc => hne (hc ▸ h))
      have hcond : (!(p.eid == m')) = false := by simp [h]
      rw [hcond, if_neg (by simp), List.any_cons, hm, Bool.false_or]
      exact ih
    · have hcond : (!(p.eid == m')) = true := by simp [h]
      rw [hcond, if_pos rfl, List.any_cons, List.any_cons, ih]

/-- Some convenient concrete states. -/
def stNoGroup : RedisState := ⟨true, [], 1, Option.none⟩

def stDown : RedisState := ⟨false, [], 1, some ⟨0, []⟩⟩

def stEmptyStream : RedisState := ⟨true, [], 1, some ⟨0, []⟩⟩

/-- C3: acknowledging the same entry id twice produces the same observable
group state as acknowledging it once, and acknowledging an id that is not
currently pending leaves the state unchanged and succeeds (the method never
raises: its catch-all handler makes it total). -/
theorem ack_idempotent (s : RedisState) (mid : Nat) :
    acknowledge_message mid (acknowledge_message mid s) = acknowledge_message mid s ∧
    (isPending mid s = false → acknowledge_message mid s = s) := by
  constructor
  · by_cases hup : s.storageUp = true
    · match hg : s.group with
      | Option.none =>
        simp [acknowledge_message, xack, hup, hg]
      | some g =>
        by_cases hany : g.pending.any (fun p => p.eid == mid) = true
        · have h1 : acknowledge_message mid s =
              { s with group := some ⟨g.lastDelivered,
                g.pending.filter (fun p => !(p.eid == mid))⟩ } := by
            simp [acknowledge_message, xack, hup, hg, hany]
          rw [h1]
          simp [acknowledge_message, xack, hup, any_filter_self]
        · simp [acknowledge_message, xack, hup, hg, hany]
    · have hdown : s.storageUp = false := by
        cases h : s.storageUp
        · rfl
        · exact absurd h hup
      simp [acknowledge_message, xack, hdown]
  · intro hnp
    by_cases hup : s.storageUp = true
    · match hg : s.group with
      | Option.none =>
        simp [acknowledge_message, xack, hup, hg]
      | some g =>
        have hany : g.pending.any (fun p => p.eid == mid) = false := by
          have := hnp
          simpa [isPending, hg] using this
        simp [acknowledge_message, xack, hup, hg, hany]
    · have hdown : s.storageUp = false := by
        cases h : s.storageUp
        · rfl
        · exact absurd h hup
      simp [acknowledge_message, xack, hdown]

/-- Witness for ack_idempotent at a concrete state and id. -/
theorem ack_idempotent_wit :
    acknowledge_message 5 (acknowledge_message 5 stEmptyStream) =
      acknowledge_message 5 stEmptyStream ∧
    acknowledge_message 5 stEmptyStream = stEmptyStream :=
  ⟨(ack_idempotent stEmptyStream 5).1, (ack_idempotent stEmptyStream 5).2 rfl⟩

/-- C6: creating the consumer group when it already exists is a no-op success:
the BUSYGROUP response is swallowed, the state (cursor and pending table of
the existing group included) is returned unchanged, and no error escapes. -/
theorem create_group_idempotent (s : RedisState) (g : Group)
    (hup : s.storageUp = true) (hg : s.group = some g) :
    create_consumer_group s = Except.ok s := by
  simp [create_consumer_group, xgroup_create, hup, hg]

/-- Witness for create_group_idempotent at a concrete state. -/
theorem create_group_idempotent_wit :
    create_consumer_group stEmptyStream = Except.ok stEmptyStream :=
  create_group_idempotent stEmptyStream ⟨0, []⟩ rfl rfl

/-- C8 counterexample: acknowledging on a state where the group (and stream)
does not exist raises no InvalidGroup/InvalidStream error at all — the
underlying xack returns 0 as a success — and acknowledge_message completes
normally with the state unchanged, so nothing is surfaced to the caller. -/
theorem ack_unknown_group_cex :
    xack 1 stNoGroup = Except.ok (0, stNoGroup) ∧
    acknowledge_message 1 stNoGroup = stNoGroup := ⟨rfl, rfl⟩

/-- C8 amended: acknowledge_message never surfaces any error: on an unknown
group/stream the ack is a silent no-op success (xack returns 0 without
raising), and any failure of the underlying call is caught and logged with
the state left unchanged. -/
theorem ack_unknown_group_silent (s : RedisState) (mid : Nat)
    (hg : s.group = Option.none) :
    acknowledge_message mid s = s ∧
    (s.storageUp = true → xack mid s = Except.ok (0, s)) := by
  constructor
  · by_cases hup : s.storageUp = true
    · simp [acknowledge_message, xack, hup, hg]
    · have hdown : s.storageUp = false := by
        cases h : s.storageUp
        · rfl
        · exact absurd h hup
      simp [acknowledge_message, xack, hdown]
  · intro hup
    simp [xack, hup, hg]

/-- Witness for ack_unknown_group_silent at a concrete state. -/
theorem ack_unknown_group_silent_wit :
    acknowledge_message 7 stNoGroup = stNoGroup ∧
    xack 7 stNoGroup = Except.ok (0, stNoGroup) :=
  ⟨(ack_unknown_group_silent stNoGroup 7 rfl).1,
   (ack_unknown_group_silent stNoGroup 7 rfl).2 rfl⟩

/-- C5: a consume call on a stream with no entries new to the group and none
pending for the caller returns the empty list after the block timeout (time
is abstracted: the empty Redis reply models the timeout), as a normal return
value with the state unchanged, not an error. -/
theorem consume_no_new (c : String) (n : Nat) (s : RedisState) (g : Group)
    (hup : s.storageUp = true) (hg : s.group = some g)
    (hnonew : ∀ e ∈ s.entries, e.eid ≤ g.lastDelivered)
    (hnopend : ∀ p ∈ g.pending, p.consumer ≠ c) :
    consume_messages c n s = ([], s) := by
  have hfil : s.entries.filter (fun e => g.lastDelivered < e.eid) = [] := by
    rw [List.filter_eq_nil_iff]
    intro e he
    simpa using Nat.not_lt.mpr (hnonew e he)
  have hread : xreadgroup_new c n s = Except.ok ([], s) := by
    simp only [xreadgroup_new, hup, if_true, hg, hfil, List.take_nil, List.map_nil,
      List.foldl_nil, List.append_nil]
    rw [← hg, ← hup]
  simp [consume_messages, hread, parse_messages]

/-- A concrete state with one already-delivered entry pending for another
consumer and nothing new. -/
def st5 : RedisState := ⟨true, [⟨1, Wire.raw "x"⟩], 2, some ⟨1, [⟨1, "other"⟩]⟩⟩

/-- Witness for consume_no_new at a concrete state. -/
theorem consume_no_new_wit : consume_messages "worker-1" 4 st5 = ([], st5) :=
  consume_no_new "worker-1" 4 st5 ⟨1, [⟨1, "other"⟩]⟩ rfl rfl (by decide) (by decide)

/-- C2 counterexample: a read whose underlying Redis call raises (storage
down) returns exactly the same value, the empty list, as a read that finds no
data on a healthy connection — the failure is not surfaced distinctly. -/
theorem failed_read_no_data_cex :
    (consume_messages "worker-1" 10 stDown).fst = [] ∧
    (consume_messages "worker-1" 10 stEmptyStream).fst = [] ∧
    (consume_messages "worker-1" 10 stDown).fst =
      (consume_messages "worker-1" 10 stEmptyStream).fst := ⟨rfl, rfl, rfl⟩

/-- C2 amended: when the durability layer is down, publish_transaction and
publish_batch (on a nonempty batch) surface the failure by raising, with no
state change; consume_messages instead swallows the failure and returns the
empty list with the state unchanged, indistinguishable from no data. -/
theorem storage_failure_surfacing (s : RedisState) (now : String) (txn : PyDict)
    (t0 : PyDict) (ts : List PyDict) (c : String) (n : Nat)
    (hdown : s.storageUp = false) :
    (publish_transaction now txn s).snd = Except.error RErr.storage ∧
    (publish_batch now (t0 :: ts) s).snd = Except.error RErr.storage ∧
    consume_messages c n s = ([], s) := by
  refine ⟨?_, ?_, ?_⟩
  · simp [publish_transaction, xadd, hdown]
  · simp [publish_batch, xadd_batch, xadd, hdown]
  · simp [consume_messages, xreadgroup_new, hdown]

/-- Witness for storage_failure_surfacing at a concrete state. -/
theorem storage_failure_surfacing_wit :
    (publish_transaction "t" PyDict.nil stDown).snd = Except.error RErr.storage ∧
    (publish_batch "t" (PyDict.nil :: []) stDown).snd = Except.error RErr.storage ∧
    consume_messages "worker-1" 3 stDown = ([], stDown) :=
  storage_failure_surfacing stDown "t" PyDict.nil PyDict.nil [] "worker-1" 3 rfl

/-! Characterization of a successful xreadgroup call and of the parse loop. -/

theorem xreadgroup_new_spec (c : String) (n : Nat) (s : RedisState) (g : Group)
    (hg : s.group = some g) (msgs : List (Nat × Wire)) (s1 : RedisState)
    (hx : xreadgroup_new c n s = Except.ok (msgs, s1)) :
    msgs = ((s.entries.filter (fun e => g.lastDelivered < e.eid)).take n).map
      (fun e => (e.eid, e.payload)) ∧
    s1.group = some
      ⟨((s.entries.filter (fun e => g.lastDelivered < e.eid)).take n).foldl
          (fun m e => max m e.eid) g.lastDelivered,
        g.pending ++ ((s.entries.filter (fun e => g.lastDelivered < e.eid)).take n).map
          (fun e => ⟨e.eid, c⟩)⟩ := by
  by_cases hup : s.storageUp = true
  · simp only [xreadgroup_new, hup, if_true, hg, Except.ok.injEq, Prod.mk.injEq] at hx
    obtain ⟨h1, h2⟩ := hx
    exact ⟨h1.symm, by rw [← h2]⟩
  · have hdown : s.storageUp = false := by
      cases h : s.storageUp
      · rfl
      · exact absurd h hup
    simp [xreadgroup_new, hdown] at hx

theorem parse_messages_mem : ∀ (msgs : List (Nat × Wire)) (parsed : List (Nat × PyVal)),
    parse_messages msgs = some parsed → ∀ mid v, (mid, v) ∈ parsed →
    ∃ w, (mid, w) ∈ msgs ∧ loadsWire w = some v
  | [], parsed, hp, mid, v, hv => by
    simp only [parse_messages, Option.some.injEq] at hp
    subst hp
    simp at hv
  | (m, w) :: rest, parsed, hp, mid, v, hv => by
    simp only [parse_messages] at hp
    cases hl : loadsWire w with
    | none =>
      rw [hl] at hp
      simp at hp
    | some v1 =>
      rw [hl] at hp
      cases hr : parse_messages rest with
      | none =>
        rw [hr] at hp
        simp at hp
      | some vs =>
        rw [hr] at hp
        simp only [Option.some.injEq] at hp
        subst hp
        rcases List.mem_cons.mp hv with hhead | htail
        · rw [Prod.mk.injEq] at hhead
          obtain ⟨h1, h2⟩ := hhead
          subst h1
          subst h2
          exact ⟨w, List.mem_cons_self _ _, hl⟩
        · obtain ⟨w1, hw1, hw2⟩ := parse_messages_mem rest vs hr mid v htail
          exact ⟨w1, List.mem_cons_of_mem _ hw1, hw2⟩

/-- C1 amended: consume_messages returns only entries with ids strictly
beyond the group's last-delivered id, i.e. entries never delivered to the
group before; a consumer's still-pending entries are never re-returned, so a
consumer reconnecting under the same name does not re-observe them. -/
theorem consume_only_new (c : String) (n : Nat) (s : RedisState) (g : Group)
    (hg : s.group = some g) (mid : Nat) (v : PyVal)
    (hv : (mid, v) ∈ (consume_messages c n s).fst) :
    g.lastDelivered < mid := by
  cases hx : xreadgroup_new c n s with
  | error e => simp [consume_messages, hx] at hv
  | ok pr =>
    obtain ⟨msgs, s1⟩ := pr
    obtain ⟨hmsgs, -⟩ := xreadgroup_new_spec c n s g hg msgs s1 hx
    simp only [consume_messages, hx] at hv
    cases hpm : parse_messages msgs with
    | none =>
      rw [hpm] at hv
      simp at hv
    | some parsed =>
      rw [hpm] at hv
      simp only at hv
      obtain ⟨w, hwmem, -⟩ := parse_messages_mem msgs parsed hpm mid v hv
      rw [hmsgs] at hwmem
      obtain ⟨e, hemem, heq⟩ := List.mem_map.mp hwmem
      have he2 : e ∈ s.entries.filter (fun e => g.lastDelivered < e.eid) :=
        List.mem_of_mem_take hemem
      have hlt : g.lastDelivered < e.eid := by
        have := (List.mem_filter.mp he2).2
        simpa using this
      rw [Prod.mk.injEq] at heq
      rw [← heq.1]
      exact hlt

/-- State after creating the group and publishing payloads A and B. -/
def stPub : RedisState :=
  ⟨true, [⟨1, Wire.json (Json.str "A")⟩, ⟨2, Wire.json (Json.str "B")⟩], 3, some ⟨0, []⟩⟩

/-- State after consumer worker-1 additionally consumed entry 1 without
acknowledging it: entry 1 is pending for worker-1, entry 2 never delivered. -/
def stC1 : RedisState :=
  ⟨true, [⟨1, Wire.json (Json.str "A")⟩, ⟨2, Wire.json (Json.str "B")⟩], 3,
    some ⟨1, [⟨1, "worker-1"⟩]⟩⟩

/-- C1 counterexample: worker-1 consumes entry 1 and does not acknowledge, so
entry 1 is pending for worker-1; the next consume_messages call by worker-1
returns only the never-delivered entry 2 — the still-pending entry 1 is not
re-delivered at all, let alone first, because the source always reads with
the only-new id. -/
theorem self_pending_replay_cex :
    consume_messages "worker-1" 1 stPub = ([(1, PyVal.str "A")], stC1) ∧
    isPending 1 stC1 = true ∧
    (consume_messages "worker-1" 10 stC1).fst = [(2, PyVal.str "B")] := ⟨rfl, rfl, rfl⟩

/-- Witness for consume_only_new at a concrete state. -/
theorem consume_only_new_wit : (1 : Nat) < 2 :=
  consume_only_new "worker-1" 10 stC1 ⟨1, [⟨1, "worker-1"⟩]⟩ rfl 2 (PyVal.str "B")
    (show (2, PyVal.str "B") ∈ [(2, PyVal.str "B")] from List.mem_cons_self _ _)

theorem parse_messages_bad : ∀ (msgs : List (Nat × Wire)) (mid : Nat) (w : Wire),
    (mid, w) ∈ msgs → loadsWire w = Option.none →
    parse_messages msgs = Option.none
  | [], mid, w, hmem, _ => by simp at hmem
  | (m, w1) :: rest, mid, w, hmem, hbad => by
    rcases List.mem_cons.mp hmem with hhead | htail
    · rw [Prod.mk.injEq] at hhead
      obtain ⟨-, h2⟩ := hhead
      subst h2
      simp [parse_messages, hbad]
    · have hr := parse_messages_bad rest mid w htail hbad
      cases hl : loadsWire w1 with
      | none => simp [parse_messages, hl, hr]
      | some v1 => simp [parse_messages, hl, hr]

/-- C10: when some delivered message's data field is not valid JSON,
consume_messages returns the empty list — the successfully parsed messages of
the batch are absent from the return value — while every message of the
delivered batch has been claimed and remains pending for the calling consumer
in the post-read state. -/
theorem bad_json_drops_batch (c : String) (n : Nat) (s : RedisState)
    (msgs : List (Nat × Wire)) (s1 : RedisState) (g : Group)
    (hg : s.group = some g)
    (hx : xreadgroup_new c n s = Except.ok (msgs, s1))
    (mid : Nat) (w : Wire) (hmem : (mid, w) ∈ msgs)
    (hbad : loadsWire w = Option.none) :
    consume_messages c n s = ([], s1) ∧
    ∀ mid1 w1, (mid1, w1) ∈ msgs → isPending mid1 s1 = true := by
  constructor
  · simp [consume_messages, hx, parse_messages_bad msgs mid w hmem hbad]
  · intro mid1 w1 hmem1
    obtain ⟨hmsgs, hgroup⟩ := xreadgroup_new_spec c n s g hg msgs s1 hx
    rw [hmsgs] at hmem1
    obtain ⟨e, hemem, heq⟩ := List.mem_map.mp hmem1
    rw [Prod.mk.injEq] at heq
    simp only [isPending, hgroup]
    have hany : (((s.entries.filter (fun e => g.lastDelivered < e.eid)).take n).map
        (fun e => (⟨e.eid, c⟩ : PendingEntry))).any (fun p => p.eid == mid1) = true := by
      apply List.any_eq_true.mpr
      exact ⟨⟨e.eid, c⟩, List.mem_map_of_mem _ hemem, by simp [heq.1]⟩
    rw [List.any_append, hany, Bool.or_true]

/-- A state holding one well-formed and one malformed payload, group fresh. -/
def stMixed : RedisState :=
  ⟨true, [⟨1, Wire.json (Json.str "A")⟩, ⟨2, Wire.raw "not json"⟩], 3, some ⟨0, []⟩⟩

/-- Post-read state for stMixed: both entries claimed by worker-1. -/
def stMixedRead : RedisState :=
  ⟨true, [⟨1, Wire.json (Json.str "A")⟩, ⟨2, Wire.raw "not json"⟩], 3,
    some ⟨2, [⟨1, "worker-1"⟩, ⟨2, "worker-1"⟩]⟩⟩

/-- Witness for bad_json_drops_batch at a concrete state. -/
theorem bad_json_drops_batch_wit :
    consume_messages "worker-1" 10 stMixed = ([], stMixedRead) ∧
    isPending 1 stMixedRead = true :=
  have hx : xreadgroup_new "worker-1" 10 stMixed =
      Except.ok ([(1, Wire.json (Json.str "A")), (2, Wire.raw "not json")],
        stMixedRead) := rfl
  have h := bad_json_drops_batch "worker-1" 10 stMixed
    [(1, Wire.json (Json.str "A")), (2, Wire.raw "not json")] stMixedRead
    ⟨0, []⟩ rfl hx 2 (Wire.raw "not json")
    (List.mem_cons_of_mem _ (List.mem_cons_self _ _)) rfl
  ⟨h.1, h.2 1 (Wire.json (Json.str "A")) (List.mem_cons_self _ _)⟩

/-- Acknowledging one id does not change the pending status of another id. -/
theorem isPending_ack_other (mid mid1 : Nat) (s : RedisState) (hne : mid ≠ mid1) :
    isPending mid (acknowledge_message mid1 s) = isPending mid s := by
  by_cases hup : s.storageUp = true
  · match hg : s.group with
    | Option.none => simp [acknowledge_message, xack, hup, hg]
    | some g =>
      by_cases hany : g.pending.any (fun p => p.eid == mid1) = true
      · simp [acknowledge_message, xack, hup, hg, hany, isPending,
          any_filter_other _ _ _ hne]
      · simp [acknowledge_message, xack, hup, hg, hany]
  · have hdown : s.storageUp = false := by
      cases h : s.storageUp
      · rfl
      · exact absurd h hup
    simp [acknowledge_message, xack, hdown]

/-- C7: in the processing loop of start_consuming, a message whose processing
raises is not acknowledged in that iteration: if processing fails for every
occurrence of an id in the batch, the batch iteration leaves that id's
pending status exactly as it was, so a pending entry remains pending. -/
theorem failed_processing_stays_pending (ok : PyVal → Bool) :
    ∀ (msgs : List (Nat × PyVal)) (s : RedisState) (mid : Nat),
    (∀ t, (mid, t) ∈ msgs → ok t = false) →
    isPending mid (process_batch ok msgs s) = isPending mid s
  | [], _, _, _ => rfl
  | (m, t) :: rest, s, mid, h => by
    have hrest : ∀ t1, (mid, t1) ∈ rest → ok t1 = false :=
      fun t1 ht1 => h t1 (List.mem_cons_of_mem _ ht1)
    by_cases hok : ok t = true
    · have hne : mid ≠ m := by
        intro he
        subst he
        have := h t (List.mem_cons_self _ _)
        rw [hok] at this
        cases this
      simp only [process_batch, hok, if_true]
      rw [failed_processing_stays_pending ok rest _ mid hrest]
      exact isPending_ack_other mid m s hne
    · have hokf : ok t = false := by
        cases hv : ok t
        · rfl
        · exact absurd hv hok
      simp only [process_batch, hokf, Bool.false_eq_true, if_false]
      exact failed_processing_stays_pending ok rest s mid hrest

/-- Witness for failed_processing_stays_pending at a concrete batch. -/
theorem failed_processing_stays_pending_wit :
    isPending 1 (process_batch (fun _ => false) [(1, PyVal.str "A")] stC1) =
      isPending 1 stC1 :=
  failed_processing_stays_pending (fun _ => false) [(1, PyVal.str "A")] stC1 1
    (fun _ _ => rfl)

/-! Lemmas about the timestamp injection. -/

theorem lookupD_setTs_other (k now : String) (hk : k ≠ "timestamp") :
    ∀ d : PyDict, lookupD k (setTsAtEnd now d) = lookupD k d
  | .nil => by
    have hb : ("timestamp" == k) = false :=
      beq_eq_false_iff_ne.mpr (fun h => hk h.symm)
    simp [setTsAtEnd, lookupD, keyMatches, hb]
  | .cons k0 v kvs => by
    by_cases hm : keyMatches k k0 = true
    · simp [setTsAtEnd, lookupD, hm]
    · simp [setTsAtEnd, lookupD, hm, lookupD_setTs_other k now hk kvs]

theorem lookupD_setTs_self (now : String) :
    ∀ d : PyDict, lookupD "timestamp" d = Option.none →
    lookupD "timestamp" (setTsAtEnd now d) = some (PyVal.str now)
  | .nil, _ => by simp [setTsAtEnd, lookupD, keyMatches]
  | .cons k0 v kvs, h => by
    by_cases hm : keyMatches "timestamp" k0 = true
    · simp [lookupD, hm] at h
    · simp only [lookupD, hm] at h
      simp only [Bool.false_eq_true, if_false] at h
      simp [setTsAtEnd, lookupD, hm, lookupD_setTs_self now kvs h]

/-- C9: publish_transaction and publish_batch mutate the caller's input: the
caller-visible dict after the call is addTimestamp of the input, where a dict
lacking a timestamp key gets one bound to the current time appended, with the
binding of every other key unchanged, and a dict that already has a timestamp
key is returned unmodified. -/
theorem publish_mutates_input (now : String) (d : PyDict) (s : RedisState)
    (txns : List PyDict) :
    (publish_transaction now d s).fst = addTimestamp now d ∧
    (publish_batch now txns s).fst = txns.map (addTimestamp now) ∧
    (hasKeyD "timestamp" d = true → addTimestamp now d = d) ∧
    (hasKeyD "timestamp" d = false →
      lookupD "timestamp" (addTimestamp now d) = some (PyVal.str now) ∧
      ∀ k, k ≠ "timestamp" → lookupD k (addTimestamp now d) = lookupD k d) := by
  refine ⟨rfl, rfl, ?_, ?_⟩
  · intro h
    simp [addTimestamp, h]
  · intro h
    have hnone : lookupD "timestamp" d = Option.none := by
      cases ho : lookupD "timestamp" d with
      | none => rfl
      | some v =>
        simp only [hasKeyD, ho, Option.isSome_some] at h
        cases h
    constructor
    · simp [addTimestamp, h, lookupD_setTs_self now d hnone]
    · intro k hk
      simp [addTimestamp, h, lookupD_setTs_other k now hk d]

/-- A concrete transaction dict lacking a timestamp. -/
def dW : PyDict := PyDict.cons (PyKey.str "a") (PyVal.int 3) PyDict.nil

/-- Witness for publish_mutates_input at a concrete dict. -/
theorem publish_mutates_input_wit :
    (publish_transaction "t9" dW stEmptyStream).fst = addTimestamp "t9" dW ∧
    lookupD "timestamp" (addTimestamp "t9" dW) = some (PyVal.str "t9") ∧
    lookupD "a" (addTimestamp "t9" dW) = lookupD "a" dW :=
  ⟨(publish_mutates_input "t9" dW stEmptyStream []).1,
   ((publish_mutates_input "t9" dW stEmptyStream []).2.2.2 rfl).1,
   ((publish_mutates_input "t9" dW stEmptyStream []).2.2.2 rfl).2 "a" (by decide)⟩

/-! Round-trip of the json.dumps / json.loads model. -/

mutual
theorem roundtrip_val : (v : PyVal) → jsonStable v = true → pyOfJson (dumps v) = v
  | .none, _ => rfl
  | .bool b, _ => rfl
  | .int n, _ => rfl
  | .str s, _ => rfl
  | .list xs, h => by
    have hx : jsonStableL xs = true := h
    simp only [dumps, pyOfJson]
    rw [roundtrip_list xs hx]
  | .tuple xs, h => by
    rw [jsonStable] at h
    cases h
  | .dict kvs, h => by
    have hx : jsonStableD kvs = true := h
    simp only [dumps, pyOfJson]
    rw [roundtrip_dict kvs hx]
theorem roundtrip_list : (xs : PyList) → jsonStableL xs = true →
    pyOfJsonL (dumpsL xs) = xs
  | .nil, _ => rfl
  | .cons x xs, h => by
    rw [jsonStableL, Bool.and_eq_true] at h
    simp only [dumpsL, pyOfJsonL]
    rw [roundtrip_val x h.1, roundtrip_list xs h.2]
theorem roundtrip_dict : (kvs : PyDict) → jsonStableD kvs = true →
    pyOfJsonO (dumpsD kvs) = kvs
  | .nil, _ => rfl
  | .cons (.str s0) v kvs, h => by
    rw [jsonStableD, Bool.and_eq_true] at h
    simp only [dumpsD, pyOfJsonO, keyToStr]
    rw [roundtrip_val v h.1, roundtrip_dict kvs h.2]
  | .cons (.int n0) v kvs, h => by
    rw [jsonStableD] at h
    cases h
end

theorem jsonStable_setTs (now : String) :
    ∀ d : PyDict, jsonStableD d = true → jsonStableD (setTsAtEnd now d) = true
  | .nil, _ => rfl
  | .cons k v kvs, h => by
    cases k with
    | str s0 =>
      rw [jsonStableD, Bool.and_eq_true] at h
      rw [setTsAtEnd, jsonStableD, Bool.and_eq_true]
      exact ⟨h.1, jsonStable_setTs now kvs h.2⟩
    | int n0 =>
      rw [jsonStableD] at h
      cases h

theorem jsonStable_addTimestamp (now : String) (d : PyDict)
    (h : jsonStableD d = true) : jsonStableD (addTimestamp now d) = true := by
  unfold addTimestamp
  by_cases hk : hasKeyD "timestamp" d = true
  · simpa [hk] using h
  · have hk2 : hasKeyD "timestamp" d = false := by
      cases hv : hasKeyD "timestamp" d
      · rfl
      · exact absurd hv hk
    simp [hk2, jsonStable_setTs now d h]

/-- Tests whether the top-level dict's first key is an int — a discriminator
separating a dict before and after the key coercion of json.dumps. -/
def firstKeyIsInt : PyVal → Bool
  | .dict (.cons (.int _) _ _) => true
  | _ => false

/-- Tests whether the top-level dict's first value is a tuple — a
discriminator separating a tuple-valued dict from its delivered form, where
json.dumps wrote the tuple as a JSON array and json.loads returned a list. -/
def firstValIsTuple : PyVal → Bool
  | .dict (.cons _ (.tuple _) _) => true
  | _ => false

/-- A transaction dict the producer accepts whose first key is the int 1
(json.dumps coerces it to the string key "1"); it already carries a
timestamp, so publishing leaves it unmodified. -/
def dBad : PyDict :=
  PyDict.cons (PyKey.int 1) (PyVal.str "a")
    (PyDict.cons (PyKey.str "timestamp") (PyVal.str "t") PyDict.nil)

/-- The state after publishing dBad into a fresh stream with the group made. -/
def stPub4 : RedisState :=
  ⟨true, [⟨1, Wire.json (dumps (PyVal.dict dBad))⟩], 2, some ⟨0, []⟩⟩

/-- What consume_messages delivers for dBad: the int key 1 has become the
string key "1". -/
def vDel : PyVal :=
  PyVal.dict (PyDict.cons (PyKey.str "1") (PyVal.str "a")
    (PyDict.cons (PyKey.str "timestamp") (PyVal.str "t") PyDict.nil))

/-- A transaction dict the producer accepts whose value at key x is the tuple
(1, 2) — json.dumps writes it as a JSON array; it already carries a
timestamp, so publishing leaves it unmodified. -/
def dTup : PyDict :=
  PyDict.cons (PyKey.str "x")
    (PyVal.tuple (PyList.cons (PyVal.int 1) (PyList.cons (PyVal.int 2) PyList.nil)))
    (PyDict.cons (PyKey.str "timestamp") (PyVal.str "t") PyDict.nil)

/-- The state after publishing dTup into a fresh stream with the group made. -/
def stTup : RedisState :=
  ⟨true, [⟨1, Wire.json (dumps (PyVal.dict dTup))⟩], 2, some ⟨0, []⟩⟩

/-- What consume_messages delivers for dTup: the tuple value has become the
list [1, 2]. -/
def vTupDel : PyVal :=
  PyVal.dict (PyDict.cons (PyKey.str "x")
    (PyVal.list (PyList.cons (PyVal.int 1) (PyList.cons (PyVal.int 2) PyList.nil)))
    (PyDict.cons (PyKey.str "timestamp") (PyVal.str "t") PyDict.nil))

/-- C4 counterexample: the producer accepts the dict with int key 1, publishes
it unchanged, but the consumer delivers a dict whose key is the string "1";
likewise the producer accepts a dict holding the tuple (1, 2), but the
consumer delivers it holding the list [1, 2]. The publish/consume round trip
does not preserve every input dict the producer accepts. -/
theorem roundtrip_cex :
    (publish_transaction "t0" dBad stEmptyStream).fst = dBad ∧
    (publish_transaction "t0" dBad stEmptyStream).snd = Except.ok (1, stPub4) ∧
    (consume_messages "worker-1" 10 stPub4).fst = [(1, vDel)] ∧
    vDel ≠ PyVal.dict dBad ∧
    (publish_transaction "t0" dTup stEmptyStream).fst = dTup ∧
    (publish_transaction "t0" dTup stEmptyStream).snd = Except.ok (1, stTup) ∧
    (consume_messages "worker-1" 10 stTup).fst = [(1, vTupDel)] ∧
    vTupDel ≠ PyVal.dict dTup := by
  refine ⟨rfl, rfl, rfl, ?_, rfl, rfl, rfl, ?_⟩
  · intro h
    exact Bool.noConfusion (congrArg firstKeyIsInt h)
  · intro h
    exact Bool.noConfusion (congrArg firstValIsTuple h)

/-- C4 amended: for every transaction dict of round-trip-stable shape — all
nested dict keys are strings and no tuple value occurs (floats lie outside
the embedding; a NaN float would also break equality) — the payload is
preserved exactly through the publish/consume round trip: whenever the
published entry is delivered by consume_messages, the delivered value equals
the published dict (after the producer's timestamp injection, which the
caller observes too). Outside that shape the round trip rewrites the value:
non-string keys are coerced to strings and tuples come back as lists. -/
theorem roundtrip_preserved (now : String) (d : PyDict) (s : RedisState)
    (hall : jsonStableD d = true)
    (hwf : ∀ e ∈ s.entries, e.eid < s.nextId)
    (mid : Nat) (s1 : RedisState)
    (hpub : (publish_transaction now d s).snd = Except.ok (mid, s1))
    (c : String) (n : Nat) (v : PyVal)
    (hdel : (mid, v) ∈ (consume_messages c n s1).fst) :
    v = PyVal.dict (addTimestamp now d) := by
  have hall1 : jsonStableD (addTimestamp now d) = true := jsonStable_addTimestamp now d hall
  by_cases hup : s.storageUp = true
  · simp only [publish_transaction, xadd, hup, if_true, Except.ok.injEq,
      Prod.mk.injEq] at hpub
    obtain ⟨hmid, hs1⟩ := hpub
    cases hg1 : s1.group with
    | none =>
      have hread : ∀ er, xreadgroup_new c n s1 ≠ Except.ok er := by
        intro er
        by_cases hup1 : s1.storageUp = true
        · simp [xreadgroup_new, hup1, hg1]
        · have hdown1 : s1.storageUp = false := by
            cases hv : s1.storageUp
            · rfl
            · exact absurd hv hup1
          simp [xreadgroup_new, hdown1]
      cases hx : xreadgroup_new c n s1 with
      | error e => simp [consume_messages, hx] at hdel
      | ok pr => exact absurd hx (hread pr)
    | some g1 =>
      cases hx : xreadgroup_new c n s1 with
      | error e => simp [consume_messages, hx] at hdel
      | ok pr =>
        obtain ⟨msgs, s2⟩ := pr
        obtain ⟨hmsgs, -⟩ := xreadgroup_new_spec c n s1 g1 hg1 msgs s2 hx
        simp only [consume_messages, hx] at hdel
        cases hpm : parse_messages msgs with
        | none =>
          rw [hpm] at hdel
          simp at hdel
        | some parsed =>
          rw [hpm] at hdel
          simp only at hdel
          obtain ⟨w, hwmem, hwl⟩ := parse_messages_mem msgs parsed hpm mid v hdel
          rw [hmsgs] at hwmem
          obtain ⟨e, hemem, heq⟩ := List.mem_map.mp hwmem
          rw [Prod.mk.injEq] at heq
          have hein : e ∈ s1.entries :=
            List.mem_filter.mp (List.mem_of_mem_take hemem) |>.1
          rw [← hs1] at hein
          simp only [List.mem_append, List.mem_singleton] at hein
          cases hein with
          | inl hold =>
            exact absurd heq.1 (Nat.ne_of_lt (hmid ▸ hwf e hold))
          | inr hnew =>
            have hpay : e.payload = Wire.json (dumps (PyVal.dict (addTimestamp now d))) := by
              rw [hnew]
            rw [heq.2] at hpay
            rw [hpay] at hwl
            simp only [loadsWire, Option.some.injEq] at hwl
            rw [← hwl]
            exact roundtrip_val (PyVal.dict (addTimestamp now d)) hall1
  · have hdown : s.storageUp = false := by
      cases hv : s.storageUp
      · rfl
      · exact absurd hv hup
    simp [publish_transaction, xadd, hdown] at hpub

/-- State after publishing dW (timestamp injected) into a fresh stream. -/
def stPubW : RedisState :=
  ⟨true, [⟨1, Wire.json (dumps (PyVal.dict (addTimestamp "tw" dW)))⟩], 2,
    some ⟨0, []⟩⟩

/-- Witness for roundtrip_preserved at a concrete dict. -/
theorem roundtrip_preserved_wit :
    PyVal.dict (addTimestamp "tw" dW) = PyVal.dict (addTimestamp "tw" dW) :=
  roundtrip_preserved "tw" dW stEmptyStream rfl (by decide) 1 stPubW rfl
    "worker-1" 5 (PyVal.dict (addTimestamp "tw" dW))
    (show (1, PyVal.dict (addTimestamp "tw" dW)) ∈
        [(1, PyVal.dict (addTimestamp "tw" dW))] from List.mem_cons_self _ _)

end FraudStream
